import Mathlib

/-!
# Verification of `pcam.py`

A shallow embedding, in Lean 4, of the transfer-learning script `pcam.py`
(dataset provisioning, model-head adaptation, train/validate/test loops,
checkpoint and path handling), together with theorems settling the
specification claims about it.

Conventions used throughout the embedding:
* Python strings are Lean `String`s; the filesystem is a finite list of
  existing paths (`os.path.exists p` becomes `p ∈ fs`).
* Machine floats are modelled by exact rationals `ℚ`.
* Fallible Python code (KeyError, NameError, IndexError, load mismatch)
  returns `Option`/`Except` values.
* External framework facilities (autograd, forward passes, metric
  estimators, the FLOP analyzer) are parameters of the definitions, since
  they are library calls, not code of this repository; the control flow
  around them is translated line by line from the source.
-/

/-- Decimal rendering of a natural number, modelling Python `str(int)`.
Fuel-based so that recursion is structural; `str_of_nat` supplies fuel `n`,
which is always sufficient. -/
def digits10 : Nat → Nat → List Nat
  | 0, _ => []
  | fuel + 1, n => if n < 10 then [n] else n % 10 :: digits10 fuel (n / 10)

/-- Little-endian base-10 value of a digit list (used only to prove that
`str_of_nat` is injective). -/
def valOfDigits : List Nat → Nat
  | [] => 0
  | d :: ds => d + 10 * valOfDigits ds

/-- Python `str(n)` for a natural number `n`. -/
def str_of_nat (n : Nat) : String :=
  ((digits10 n n).map Nat.digitChar).reverse.asString

/-- Last index of character `c` in `l`, or `-1` when absent: Python
`str.rfind`. -/
def rfind (l : List Char) (c : Char) : Int :=
  match (l.reverse.findIdx? (· == c)) with
  | some i => (l.length : Int) - 1 - (i : Int)
  | none => -1

/-- `os.path.splitext`: split off the extension at the last dot of the base
name, except when the base name consists only of leading dots. -/
def splitext (p : String) : String × String :=
  let l := p.data
  let sepIndex := rfind l '/'
  let dotIndex := rfind l '.'
  if sepIndex < dotIndex ∧
      ((l.take dotIndex.toNat).drop (sepIndex + 1).toNat).any (· ≠ '.') then
    ((l.take dotIndex.toNat).asString, (l.drop dotIndex.toNat).asString)
  else
    (p, "")

/-- The candidate path tried by `uniquify` at counter value `k`:
`filename + "_" + str(k) + extension`. -/
def uniqCand (path : String) (k : Nat) : String :=
  (splitext path).1 ++ "_" ++ str_of_nat k ++ (splitext path).2

/-- The `while os.path.exists(path)` loop of `uniquify`, with explicit fuel.
`fs` is the set of existing paths. -/
def uniquifyAux (fs : List String) (orig : String) : String → Nat → Nat → String
  | path, _, 0 => path
  | path, counter, fuel + 1 =>
    if path ∈ fs then uniquifyAux fs orig (uniqCand orig counter) (counter + 1) fuel
    else path

/-- `uniquify(path)` from `pcam.py`: append `_1`, `_2`, … before the
extension until the path does not exist.  The fuel `fs.length + 1` is proved
sufficient (`uniquify_smallest_counter`). -/
def uniquify (fs : List String) (path : String) : String :=
  uniquifyAux fs path path 1 (fs.length + 1)

/-! ## Dataset provisioning (`get_dataloaders`, pcam.py lines 41–89) -/

/-- A torchvision transform as used by `get_dataloaders`.  Channel
statistics are exact rationals. -/
inductive Transform where
  | toTensor : Transform
  | resize (size : Nat) (antialias : Bool) : Transform
  | randomHorizontalFlip : Transform
  | randomVerticalFlip : Transform
  | normalize (mean std : List ℚ) : Transform
deriving DecidableEq, Repr

/-- A `DataLoader` over one `PCAM` split, recording everything
`get_dataloaders` configures: dataset root, split name, the composed
transform, batch size and shuffling. -/
structure PcamLoader where
  root : String
  split : String
  transform : List Transform
  batch_size : Nat
  shuffle : Bool
deriving DecidableEq, Repr

/-- `get_dataloaders` from `pcam.py`: returns the (train, val, test) loader
triple; train and val are `none` when `train` is false. -/
def get_dataloaders (data_path : String) (batch_size : Nat) (train : Bool := true)
    (shuffle : Bool := true) (resize : Nat := 96) (augment : Bool := false) :
    Option PcamLoader × Option PcamLoader × Option PcamLoader :=
  let preprocess_list : List Transform :=
    [Transform.toTensor, Transform.resize resize true]
  let augment_list : List Transform :=
    if augment = true then [Transform.randomHorizontalFlip, Transform.randomVerticalFlip]
    else []
  let normalize_list : List Transform :=
    [Transform.normalize [0.485, 0.456, 0.406] [0.229, 0.224, 0.225]]
  let train_transform := preprocess_list ++ augment_list ++ normalize_list
  let testval_transform := preprocess_list ++ normalize_list
  let train_loader : Option PcamLoader :=
    if train then some ⟨data_path, "train", train_transform, batch_size, shuffle⟩
    else none
  let val_loader : Option PcamLoader :=
    if train then some ⟨data_path, "val", testval_transform, batch_size, shuffle⟩
    else none
  let test_loader : Option PcamLoader :=
    some ⟨data_path, "test", testval_transform, batch_size, shuffle⟩
  (train_loader, val_loader, test_loader)

/-- Is this transform one of the two flip augmentations? -/
def isFlip : Transform → Bool
  | Transform.randomHorizontalFlip => true
  | Transform.randomVerticalFlip => true
  | _ => false

/-! ## Model adaptation (`get_model`, pcam.py lines 92–155) -/

/-- An `nn.Linear` layer: dimensions, bias flag, and whether its parameters
require gradients. -/
structure LinearLayer where
  in_features : Nat
  out_features : Nat
  bias : Bool
  requires_grad : Bool
deriving DecidableEq, Repr

/-- A layer of a classification head, as constructed by `get_model`. -/
inductive Layer where
  | linear (l : LinearLayer) : Layer
  | dropout (p : ℚ) (inplace : Bool) : Layer
  | relu (inplace : Bool) : Layer
deriving DecidableEq, Repr

/-- A torchvision model as seen by `get_model`: its runtime class name, the
`requires_grad` flags of its backbone (non-head) parameter tensors, and its
classification-head attribute (`classifier` / `fc` / `head`) as a layer
list. -/
structure NNModel where
  className : String
  backbone : List Bool
  head : List Layer
deriving DecidableEq, Repr

/-- A fresh `nn.Linear(in_features, out_features)`: bias defaults to true,
parameters require gradients. -/
def newLinear (inf outf : Nat) : Layer :=
  Layer.linear ⟨inf, outf, true, true⟩

/-- Pretrained `nn.Linear` (gradients initially enabled). -/
def pretrainedLinear (inf outf : Nat) : Layer :=
  Layer.linear ⟨inf, outf, true, true⟩

/-- Modelled from the torchvision model zoo: `alexnet(pretrained=True)`.
Backbone flag counts abstract the backbone parameter tensors; head
structure and dimensions are those of torchvision. -/
def alexnet : NNModel :=
  ⟨"AlexNet", List.replicate 10 true,
    [Layer.dropout 0.5 false, pretrainedLinear 9216 4096, Layer.relu true,
     Layer.dropout 0.5 false, pretrainedLinear 4096 4096, Layer.relu true,
     pretrainedLinear 4096 1000]⟩

/-- Modelled from the torchvision model zoo: `vgg16(pretrained=True)`. -/
def vgg16 : NNModel :=
  ⟨"VGG", List.replicate 26 true,
    [pretrainedLinear 25088 4096, Layer.relu true, Layer.dropout 0.5 false,
     pretrainedLinear 4096 4096, Layer.relu true, Layer.dropout 0.5 false,
     pretrainedLinear 4096 1000]⟩

/-- Modelled from the torchvision model zoo: `vgg11(pretrained=True)`. -/
def vgg11 : NNModel :=
  ⟨"VGG", List.replicate 16 true,
    [pretrainedLinear 25088 4096, Layer.relu true, Layer.dropout 0.5 false,
     pretrainedLinear 4096 4096, Layer.relu true, Layer.dropout 0.5 false,
     pretrainedLinear 4096 1000]⟩

/-- Modelled from the torchvision model zoo: `googlenet(pretrained=True)`;
runtime class name `GoogLeNet`, head attribute `fc`. -/
def googlenet : NNModel :=
  ⟨"GoogLeNet", List.replicate 116 true, [pretrainedLinear 1024 1000]⟩

/-- Modelled from the torchvision model zoo: `inception_v3(pretrained=True)`;
runtime class name `Inception3`, head attribute `fc`. -/
def inception_v3 : NNModel :=
  ⟨"Inception3", List.replicate 290 true, [pretrainedLinear 2048 1000]⟩

/-- Modelled from the torchvision model zoo: `resnet18(pretrained=True)`;
runtime class name `ResNet`, head attribute `fc`. -/
def resnet18 : NNModel :=
  ⟨"ResNet", List.replicate 60 true, [pretrainedLinear 512 1000]⟩

/-- Modelled from the torchvision model zoo: `densenet161(pretrained=True)`;
head attribute `classifier`, a single linear layer. -/
def densenet161 : NNModel :=
  ⟨"DenseNet", List.replicate 482 true, [pretrainedLinear 2208 1000]⟩

/-- Modelled from the torchvision model zoo: `swin_v2_b(weights)`; runtime
class name `SwinTransformer`, head attribute `head`. -/
def swin_v2_b : NNModel :=
  ⟨"SwinTransformer", List.replicate 328 true, [pretrainedLinear 1024 1000]⟩

/-- The `model_dir` dictionary of `get_model`. -/
def model_dir : List (String × NNModel) :=
  [("AlexNet", alexnet),
   ("VGG-16", vgg16),
   ("VGG-11", vgg11),
   ("GoogleNet", googlenet),
   ("Inception-v3", inception_v3),
   ("ResNet-18", resnet18),
   ("DenseNet-161", densenet161),
   ("SWIN-v2-B", swin_v2_b)]

/-- The architecture names accepted by `get_model` (the keys of
`model_dir`). -/
def supported_names : List String := model_dir.map Prod.fst

/-- Does every parameter of this layer require gradients?  (Parameter-free
layers — dropout, relu — hold vacuously.) -/
def linearTrainable : Layer → Bool
  | Layer.linear l => l.requires_grad
  | _ => true

/-- `for param in model.parameters(): param.requires_grad = False`. -/
def freeze (m : NNModel) : NNModel :=
  { m with
    backbone := m.backbone.map (fun _ => false)
    head := m.head.map (fun layer =>
      match layer with
      | Layer.linear l => Layer.linear { l with requires_grad := false }
      | other => other) }

/-- `model.classifier[-1]` when it is a linear layer. -/
def lastLinear (head : List Layer) : Option LinearLayer :=
  match head.getLast? with
  | some (Layer.linear l) => some l
  | _ => none

/-- `model.classifier[-1].in_features` (0 stands for the `AttributeError`
case, which no supported model reaches). -/
def lastLinearIn (head : List Layer) : Nat :=
  match lastLinear head with
  | some l => l.in_features
  | none => 0

/-- `model.fc.in_features` / `model.classifier.in_features` /
`model.head.in_features` for the single-linear-head families. -/
def singleLinearIn (head : List Layer) : Nat :=
  match head with
  | [Layer.linear l] => l.in_features
  | _ => 0

/-- The head-replacement block of `get_model` (pcam.py lines 110–153),
branching on the model's runtime class name exactly as the source does. -/
def replace_head (m : NNModel) (all_linears : Bool) : NNModel :=
  let num_classes := 2
  if all_linears then
    if m.className = "AlexNet" then
      { m with head :=
        [Layer.dropout 0.5 false, newLinear 9216 4096, Layer.relu true,
         Layer.dropout 0.5 false, newLinear 4096 4096, Layer.relu true,
         newLinear 4096 num_classes] }
    else if m.className = "VGG" then
      { m with head :=
        [newLinear 25088 4096, Layer.relu true, Layer.dropout 0.5 false,
         newLinear 4096 4096, Layer.relu true, Layer.dropout 0.5 false,
         newLinear 4096 num_classes] }
    else if m.className = "DenseNet" then
      { m with head := [newLinear (singleLinearIn m.head) num_classes] }
    else if m.className = "VisionTransformer" then
      { m with head := [newLinear (singleLinearIn m.head) num_classes] }
    else if m.className = "SwinTransformer" then
      { m with head := [newLinear (singleLinearIn m.head) num_classes] }
    else
      { m with head := [newLinear (singleLinearIn m.head) num_classes] }
  else
    if m.className = "AlexNet" then
      { m with head := m.head.dropLast ++ [newLinear (lastLinearIn m.head) num_classes] }
    else if m.className = "VGG" then
      { m with head := m.head.dropLast ++ [newLinear (lastLinearIn m.head) num_classes] }
    else if m.className = "DenseNet" then
      { m with head := [newLinear (singleLinearIn m.head) num_classes] }
    else if m.className = "VisionTransformer" then
      { m with head := [newLinear (singleLinearIn m.head) num_classes] }
    else if m.className = "SwinTransformer" then
      { m with head := [newLinear (singleLinearIn m.head) num_classes] }
    else
      { m with head := [newLinear (singleLinearIn m.head) num_classes] }

/-- `get_model` from `pcam.py`: dictionary lookup (KeyError propagates as
`none`), freeze all parameters, then attach the new head. -/
def get_model (model_name : String) (device : String) (all_linears : Bool := true) :
    Option NNModel :=
  match model_dir.lookup model_name with
  | none => none
  | some m =>
    let _ := device
    some (replace_head (freeze m) all_linears)

/-- Is `pre` a prefix of `l`?  (Structural, kernel-computable.) -/
def list_isPre : List Char → List Char → Bool
  | [], _ => true
  | _ :: _, [] => false
  | a :: as_, b :: bs => a = b && list_isPre as_ bs

/-- Python `sub in s` on strings: substring containment.  (Structural
replacement for library routines that do not reduce in the kernel.) -/
def list_containsSub (sub : List Char) : List Char → Bool
  | [] => list_isPre sub []
  | b :: bs => list_isPre sub (b :: bs) || list_containsSub sub bs

/-- Python `sub in s` on strings. -/
def str_contains (s sub : String) : Bool :=
  list_containsSub sub.data s.data

/-- Python `s.split(c)` for a one-character separator. -/
def split_on_char (c : Char) : List Char → List (List Char)
  | [] => [[]]
  | a :: t =>
    let r := split_on_char c t
    if a = c then [] :: r
    else
      match r with
      | [] => [[a]]
      | h :: t2 => (a :: h) :: t2

/-! ## Train / test loops (`train`, `test`, pcam.py lines 158–388) -/

/-- A network as seen by the training loop: runtime class name, the
parameter state dict (name-value pairs, values abstracted to `Int`),
train/eval mode, and the `aux_logits` attribute touched for Inception. -/
structure Net where
  className : String
  state_dict : List (String × Int)
  training : Bool
  aux_logits : Bool
deriving DecidableEq, Repr

/-- An optimizer: `defaults["lr"]` kept as its Python `str()` rendering
(only ever used through `str(lr)`), plus its `state_dict`. -/
structure Optim where
  lr_str : String
  state_dict : List (String × Int)
deriving DecidableEq, Repr

/-- A learning-rate scheduler, abstracted to its state. -/
structure Sched where
  state : Int
deriving DecidableEq, Repr

/-- The checkpoint bundle written by `torch.save` at the end of `train`. -/
structure Checkpoint where
  epochs : Nat
  model_state_dict : List (String × Int)
  optimizer_state_dict : List (String × Int)
  train_loss : ℚ
  train_acc : ℚ
  train_auc : ℚ
  val_loss : ℚ
  val_acc : ℚ
  val_auc : ℚ
deriving DecidableEq, Repr

/-- The six per-epoch metric values printed and saved by `train`. -/
structure EpochMetrics where
  train_loss : ℚ
  train_acc : ℚ
  train_auc : ℚ
  val_loss : ℚ
  val_acc : ℚ
  val_auc : ℚ
deriving DecidableEq, Repr

/-- Python exceptions that `train`/`test` can let propagate. -/
inductive PyError where
  | keyError : PyError
  | nameError : PyError
  | indexError : PyError
  | loadMismatch : PyError
deriving DecidableEq, Repr

/-- `model.load_state_dict(sd)` with the default `strict=True`: fails when
the keys disagree (shape information is abstracted into the key list),
otherwise replaces every parameter value. -/
def load_state_dict (m : Net) (sd : List (String × Int)) : Option Net :=
  if m.state_dict.map Prod.fst = sd.map Prod.fst then
    some { m with state_dict := sd }
  else
    none

/-- The external framework semantics `train`/`test` delegate to: forward
passes, loss backward + optimizer step, scheduler step, the streaming
metric estimators, and batch shapes.  `β` is the batch type, `γ` the
model-output type. -/
structure Autograd (β γ : Type) where
  forward : Net → β → γ
  backward_step : Net → Optim → ℚ → β → Net × Optim
  sched_step : Sched → Sched
  acc_compute : List (γ × β) → ℚ
  auc_compute : List (γ × β) → ℚ
  input_shape : β → List Nat

/-- `np.average` (the empty case, NaN in Python, is never saved by the
claims under scrutiny and is rendered as `0`). -/
def np_average (l : List ℚ) : ℚ := l.sum / l.length

/-- The training pass of one epoch (pcam.py lines 180–218): set train mode,
reset metrics, then per batch forward / loss / backward / optimizer step,
accumulating the loss array and metric updates. -/
def train_pass {β γ : Type} (A : Autograd β γ) (loss_fun : γ → β → ℚ)
    (net : Net) (opt : Optim) (batches : List β) :
    Net × Optim × List ℚ × List (γ × β) :=
  batches.foldl
    (fun acc b =>
      let n := acc.1
      let o := acc.2.1
      let losses := acc.2.2.1
      let ms := acc.2.2.2
      let out := A.forward n b
      let l := loss_fun out b
      let stepped := A.backward_step n o l b
      (stepped.1, stepped.2, losses ++ [l], ms ++ [(out, b)]))
    ({ net with training := true }, opt, [], [])

/-- The validation pass of one epoch (pcam.py lines 228–251): set eval
mode, reset metrics, then per batch forward / loss / metric update under
`torch.no_grad()` — no backward pass, no optimizer step, no scheduler
step. -/
def val_pass {β γ : Type} (A : Autograd β γ) (loss_fun : γ → β → ℚ)
    (net : Net) (batches : List β) :
    Net × List ℚ × List (γ × β) :=
  let net := { net with training := false }
  let folded :=
    batches.foldl
      (fun acc b =>
        let out := A.forward net b
        let l := loss_fun out b
        (acc.1 ++ [l], acc.2 ++ [(out, b)]))
      ([], [])
  (net, folded.1, folded.2)

/-- The mutable state carried across epochs of `train`: model, optimizer,
scheduler, and the per-epoch metric variables (`none` before the first
epoch has assigned them, modelling Python's undefined names). -/
structure LoopState where
  net : Net
  opt : Optim
  sched : Sched
  metrics : Option EpochMetrics

/-- One iteration of the epoch loop of `train` (pcam.py lines 178–261):
training pass, scheduler step, train aggregates, validation pass,
validation aggregates. -/
def epoch_body {β γ : Type} (A : Autograd β γ) (loss_fun : γ → β → ℚ)
    (train_loader val_loader : List β) (s : LoopState) : LoopState :=
  let tp := train_pass A loss_fun s.net s.opt train_loader
  let sched1 := A.sched_step s.sched
  let train_loss := np_average tp.2.2.1
  let train_acc := A.acc_compute tp.2.2.2
  let train_auc := A.auc_compute tp.2.2.2
  let vp := val_pass A loss_fun tp.1 val_loader
  let val_loss := np_average vp.2.1
  let val_acc := A.acc_compute vp.2.2
  let val_auc := A.auc_compute vp.2.2
  ⟨vp.1, tp.2.1, sched1,
    some ⟨train_loss, train_acc, train_auc, val_loss, val_acc, val_auc⟩⟩

/-- `str(lr).split(".")[1]`: the digits after the decimal point of the
learning rate; `none` models the `IndexError` when `str(lr)` has no dot. -/
def lr_digits (lr_str : String) : Option String :=
  (((split_on_char '.' lr_str.data).map List.asString))[1]?

/-- The checkpoint folder name synthesized by `train` when no save path is
given (pcam.py lines 265–266):
`models/{class}_lr{digits}_epoch{n}[_augment]`. -/
def synth_folder (className lr_str : String) (num_epochs : Nat) (augment : Bool) :
    Option String :=
  (lr_digits lr_str).map (fun d =>
    "models/" ++ className ++ "_lr" ++ d ++ "_epoch" ++ str_of_nat num_epochs ++
      (if augment then "_augment" else ""))

/-- The save-path computation of `train` (pcam.py lines 264–270): an
explicit path is used as given; otherwise the folder is synthesized,
de-duplicated with `uniquify` against the existing paths `fs`, and the
file `{class}.pt` is placed inside it. -/
def resolve_save_path (fs : List String) (save_ckpt_path : Option String)
    (className lr_str : String) (num_epochs : Nat) (augment : Bool) :
    Except PyError String :=
  match save_ckpt_path with
  | some p => Except.ok p
  | none =>
    match synth_folder className lr_str num_epochs augment with
    | none => Except.error PyError.indexError
    | some folder => Except.ok (uniquify fs folder ++ "/" ++ className ++ ".pt")

/-- The checkpoint-loading step shared by `train` and `test` (pcam.py
lines 170–172 and 299–301): only `checkpoint['model_state_dict']` is read. -/
def load_step (m : Net) (load_ckpt : Option Checkpoint) : Except PyError Net :=
  match load_ckpt with
  | none => Except.ok m
  | some c =>
    match load_state_dict m c.model_state_dict with
    | some m2 => Except.ok m2
    | none => Except.error PyError.loadMismatch

/-- `train` from `pcam.py` (lines 158–290): Inception aux-logits tweak,
optional checkpoint load, the epoch loop, save-path resolution, and the
`torch.save` bundle.  Returns the final model, the `(path, checkpoint)`
pair that `torch.save` writes, and the last epoch's metrics; any error
aborts the run with nothing written. -/
def train {β γ : Type} (A : Autograd β γ) (model : Net)
    (train_loader val_loader : List β) (loss_fun : γ → β → ℚ)
    (optimizer : Optim) (scheduler : Sched) (num_epochs : Nat)
    (augment : Bool := false) (save_ckpt_path : Option String := none)
    (load_ckpt : Option Checkpoint := none) (fs : List String := []) :
    Except PyError (Net × (String × Checkpoint) × EpochMetrics) := do
  let model :=
    if str_contains model.className "Inception" then
      { model with aux_logits := false }
    else model
  let model ← load_step model load_ckpt
  let final :=
    (List.range num_epochs).foldl
      (fun s _epoch => epoch_body A loss_fun train_loader val_loader s)
      ⟨model, optimizer, scheduler, none⟩
  let path ← resolve_save_path fs save_ckpt_path final.net.className
    optimizer.lr_str num_epochs augment
  match final.metrics with
  | none => Except.error PyError.nameError
  | some ms =>
    let ckpt : Checkpoint :=
      ⟨num_epochs, final.net.state_dict, final.opt.state_dict,
        ms.train_loss, ms.train_acc, ms.train_auc,
        ms.val_loss, ms.val_acc, ms.val_auc⟩
    Except.ok (final.net, (path, ckpt), ms)

/-- `test` from `pcam.py` (lines 293–388), up to its persisted metrics:
optional checkpoint load, eval mode, the no-grad test pass, and the GFLOPs
computation `2 * macs / 1e9` at the first batch's input resolution
(`StopIteration` on an empty loader becomes `indexError`); `macs_of`
stands for the ptflops complexity analyzer.  CSV serialization is not
modelled. -/
def test {β γ : Type} (A : Autograd β γ) (model : Net) (test_loader : List β)
    (loss_fun : γ → β → ℚ) (macs_of : Net → List Nat → Nat)
    (load_ckpt : Option Checkpoint := none) :
    Except PyError (ℚ × ℚ × ℚ × ℚ) := do
  let model ← load_step model load_ckpt
  let tp := val_pass A loss_fun model test_loader
  let test_loss := np_average tp.2.1
  let test_acc := A.acc_compute tp.2.2
  let test_auc := A.auc_compute tp.2.2
  match test_loader with
  | [] => Except.error PyError.indexError
  | b :: _ =>
    let image_size := (A.input_shape b).drop 1
    let macs := macs_of tp.1 image_size
    let gflops : ℚ := 2 * macs / 1000000000
    Except.ok (gflops, test_loss, test_acc, test_auc)

/-! ## Concrete instances used by the witness theorems -/

/-- A trivial `Autograd` instance over unit batches/outputs (forward is
constant, backward/step and scheduler step are identities, both metric
estimators return 0, batches have shape `[1, 3, 96, 96]`). -/
def unitAutograd : Autograd Unit Unit :=
  ⟨fun _ _ => (), fun n o _ _ => (n, o), fun s => s, fun _ => 0, fun _ => 0,
   fun _ => [1, 3, 96, 96]⟩

/-- A small concrete network. -/
def demoNet : Net := ⟨"ResNet", [("fc.weight", 5), ("fc.bias", -3)], false, true⟩

/-- A freshly constructed network of the same architecture as `demoNet`
(same parameter keys, different values). -/
def demoFresh : Net := ⟨"ResNet", [("fc.weight", 0), ("fc.bias", 0)], false, true⟩

/-- A concrete optimizer with learning rate 0.5. -/
def demoOpt : Optim := ⟨"0.5", [("momentum", 9)]⟩

/-- A concrete scheduler. -/
def demoSched : Sched := ⟨0⟩

/-- A constant-zero loss function over unit batches. -/
def zeroLoss : Unit → Unit → ℚ := fun _ _ => 0

/-! ## Theorems -/

/-- Helper: a lookup with a key absent from the key list is `none`. -/
theorem lookup_eq_none_of_not_mem {α β : Type} [BEq α] [LawfulBEq α]
    (l : List (α × β)) (k : α) (h : k ∉ l.map Prod.fst) : l.lookup k = none := by
  induction l with
  | nil => rfl
  | cons a t ih =>
    simp only [List.map_cons, List.mem_cons, not_or] at h
    simp only [List.lookup]
    have hne : (k == a.1) = false := by simpa using h.1
    rw [hne]
    exact ih h.2

/-- C6: with the train flag false, `get_dataloaders` returns null train and
validation iterators; with it true, all three iterators are non-null; the
test iterator is non-null either way. -/
theorem dataloaders_train_flag (root : String) (bs : Nat) (tr sh aug : Bool) (rs : Nat) :
    ((get_dataloaders root bs tr sh rs aug).1.isSome = tr) ∧
    ((get_dataloaders root bs tr sh rs aug).2.1.isSome = tr) ∧
    ((get_dataloaders root bs tr sh rs aug).2.2.isSome = true) := by
  cases tr <;> simp [get_dataloaders]

/-- C8: for any architecture name outside the supported set, `get_model`
raises a lookup error (modelled as `none`) that propagates to the caller. -/
theorem get_model_unknown_name (name device : String) (al : Bool)
    (h : name ∉ supported_names) : get_model name device al = none := by
  unfold get_model
  rw [lookup_eq_none_of_not_mem model_dir name (by simpa [supported_names] using h)]

/-- Witness for C8 at the unsupported name `ResNet-50`. -/
theorem get_model_unknown_name_witness :
    "ResNet-50" ∉ supported_names ∧ get_model "ResNet-50" "cuda" true = none :=
  ⟨by decide, get_model_unknown_name "ResNet-50" "cuda" true (by decide)⟩

/-- C2 counterexample: at `augment = true`, the train transform contains
exactly the two flip augmentations but the validation transform contains
none — the validation split is given the test transform (pcam.py line 78),
refuting the claim that train and validation both include the flips. -/
theorem val_transform_counterexample :
    ((get_dataloaders "data" 32 true true 96 true).1.map
        (fun l => l.transform.filter (fun t => isFlip t))) =
      some [Transform.randomHorizontalFlip, Transform.randomVerticalFlip] ∧
    ((get_dataloaders "data" 32 true true 96 true).2.1.map
        (fun l => l.transform.filter (fun t => isFlip t))) = some [] := by
  exact ⟨rfl, rfl⟩

/-- C2 (amended): the train transform differs from the test transform only
in whether the flips are applied (flips present in train exactly when
`augment` is true, never in test), the validation transform is identical to
the test transform, and all three share the resize-then-normalize
preprocessing with fixed channel statistics. -/
theorem transforms_amended (root : String) (bs : Nat) (sh aug : Bool) (rs : Nat) :
    ((get_dataloaders root bs true sh rs aug).2.1.map PcamLoader.transform =
      (get_dataloaders root bs true sh rs aug).2.2.map PcamLoader.transform) ∧
    ((get_dataloaders root bs true sh rs aug).1.map
        (fun l => l.transform.filter (fun t => !isFlip t)) =
      (get_dataloaders root bs true sh rs aug).2.2.map PcamLoader.transform) ∧
    (aug = true →
      (get_dataloaders root bs true sh rs aug).1.map
          (fun l => l.transform.filter (fun t => isFlip t)) =
        some [Transform.randomHorizontalFlip, Transform.randomVerticalFlip]) ∧
    ((get_dataloaders root bs true sh rs aug).2.2.map
        (fun l => l.transform.filter (fun t => isFlip t)) = some []) ∧
    ((get_dataloaders root bs true sh rs aug).2.2.map PcamLoader.transform =
      some [Transform.toTensor, Transform.resize rs true,
        Transform.normalize [0.485, 0.456, 0.406] [0.229, 0.224, 0.225]]) := by
  cases aug <;> simp [get_dataloaders, isFlip]

/-- Witness for C2 (amended) at a concrete augmented call. -/
theorem transforms_amended_witness :
    ((get_dataloaders "data" 32 true true 96 true).2.1.map PcamLoader.transform =
      (get_dataloaders "data" 32 true true 96 true).2.2.map PcamLoader.transform) ∧
    ((get_dataloaders "data" 32 true true 96 true).1.map
        (fun l => l.transform.filter (fun t => isFlip t)) =
      some [Transform.randomHorizontalFlip, Transform.randomVerticalFlip]) := by
  have h := transforms_amended "data" 32 true true 96
  exact ⟨h.1, h.2.2.1 rfl⟩

/-- C1: for every supported architecture name and in both head-replacement
modes, `get_model` succeeds and returns a model whose final classification
layer has out-feature count exactly 2 and requires gradients (the newly
attached head is trainable; in `all_linears` mode every linear layer of the
head is newly attached and trainable), while every backbone parameter is
marked non-trainable. -/
theorem get_model_head_spec (name device : String) (al : Bool)
    (h : name ∈ supported_names) :
    ∃ m, get_model name device al = some m ∧
      (∃ l, lastLinear m.head = some l ∧ l.out_features = 2 ∧ l.requires_grad = true) ∧
      (∀ g ∈ m.backbone, g = false) ∧
      (al = true → ∀ layer ∈ m.head, linearTrainable layer = true) := by
  simp only [supported_names, model_dir, List.map_cons, List.map_nil] at h
  fin_cases h <;> cases al <;>
    exact ⟨_, rfl, ⟨_, rfl, rfl, rfl⟩, by decide, by decide⟩

/-- Witness for C1 at `ResNet-18` in default mode. -/
theorem get_model_head_spec_witness :
    "ResNet-18" ∈ supported_names ∧
    ∃ m, get_model "ResNet-18" "cpu" true = some m ∧
      (∃ l, lastLinear m.head = some l ∧ l.out_features = 2 ∧ l.requires_grad = true) ∧
      (∀ g ∈ m.backbone, g = false) ∧
      (true = true → ∀ layer ∈ m.head, linearTrainable layer = true) :=
  ⟨by decide, get_model_head_spec "ResNet-18" "cpu" true (by decide)⟩

/-- C7: across the validation pass of an epoch of `train` (which runs in
no-grad mode: no backward pass, no optimizer step, no scheduler step), the
model parameters are unchanged, and the epoch's final optimizer and
scheduler states are exactly those produced by the training pass and the
single scheduler step that precede the validation pass. -/
theorem validation_pass_frame {β γ : Type} (A : Autograd β γ) (loss_fun : γ → β → ℚ)
    (train_loader val_loader : List β) (s : LoopState) :
    ((val_pass A loss_fun (train_pass A loss_fun s.net s.opt train_loader).1
        val_loader).1.state_dict =
      (train_pass A loss_fun s.net s.opt train_loader).1.state_dict) ∧
    ((epoch_body A loss_fun train_loader val_loader s).net.state_dict =
      (train_pass A loss_fun s.net s.opt train_loader).1.state_dict) ∧
    ((epoch_body A loss_fun train_loader val_loader s).opt =
      (train_pass A loss_fun s.net s.opt train_loader).2.1) ∧
    ((epoch_body A loss_fun train_loader val_loader s).sched = A.sched_step s.sched) := by
  exact ⟨rfl, rfl, rfl, rfl⟩

/-- C9: neither `train` nor `test` ever reads the `epochs` or
`optimizer_state_dict` entries of a loaded checkpoint — replacing them by
arbitrary values leaves both functions' results unchanged (a "resumed" run
restarts from epoch 0 with the freshly constructed optimizer and
scheduler). -/
theorem checkpoint_extra_fields_unread {β γ : Type} (A : Autograd β γ) (model : Net)
    (train_loader val_loader test_loader : List β) (loss_fun : γ → β → ℚ)
    (optimizer : Optim) (scheduler : Sched) (num_epochs : Nat) (augment : Bool)
    (save_ckpt_path : Option String) (fs : List String)
    (macs_of : Net → List Nat → Nat) (c : Checkpoint) (e : Nat)
    (os : List (String × Int)) :
    (train A model train_loader val_loader loss_fun optimizer scheduler num_epochs
        augment save_ckpt_path
        (some { c with epochs := e, optimizer_state_dict := os }) fs =
      train A model train_loader val_loader loss_fun optimizer scheduler num_epochs
        augment save_ckpt_path (some c) fs) ∧
    (test A model test_loader loss_fun macs_of
        (some { c with epochs := e, optimizer_state_dict := os }) =
      test A model test_loader loss_fun macs_of (some c)) := by
  exact ⟨rfl, rfl⟩

/-- C5: for a fixed model and a fixed test input resolution (the shape of
the first batch with the leading channel dimension position stripped,
`shape[1:]`), `test` computes its GFLOPs value deterministically as
`2 * MACs / 1e9`, where MACs is the complexity analyzer's count for that
model at that resolution. -/
theorem gflops_formula {β γ : Type} (A : Autograd β γ) (model : Net)
    (loss_fun : γ → β → ℚ) (macs_of : Net → List Nat → Nat)
    (b : β) (rest : List β) :
    ∃ tl ta tu,
      test A model (b :: rest) loss_fun macs_of none =
        Except.ok
          (2 * (macs_of { model with training := false } ((A.input_shape b).drop 1) : ℚ) /
              1000000000,
            tl, ta, tu) := by
  exact ⟨_, _, _, rfl⟩

/-- C3: if `train` completes and saves a checkpoint, then loading that
checkpoint into a freshly constructed model of the same architecture (same
parameter keys) succeeds and reproduces exactly the parameter values that
were saved — which are the final model's parameters. -/
theorem checkpoint_roundtrip {β γ : Type} (A : Autograd β γ) (model : Net)
    (train_loader val_loader : List β) (loss_fun : γ → β → ℚ)
    (optimizer : Optim) (scheduler : Sched) (num_epochs : Nat) (augment : Bool)
    (save_ckpt_path : Option String) (load_ckpt : Option Checkpoint) (fs : List String)
    (m : Net) (path : String) (ckpt : Checkpoint) (ms : EpochMetrics)
    (fresh : Net)
    (hrun : train A model train_loader val_loader loss_fun optimizer scheduler
        num_epochs augment save_ckpt_path load_ckpt fs = Except.ok (m, (path, ckpt), ms))
    (hkeys : fresh.state_dict.map Prod.fst = ckpt.model_state_dict.map Prod.fst) :
    load_state_dict fresh ckpt.model_state_dict =
      some { fresh with state_dict := ckpt.model_state_dict } ∧
    ckpt.model_state_dict = m.state_dict := by
  constructor
  · unfold load_state_dict
    rw [if_pos hkeys]
  · unfold train at hrun
    simp only [bind, Except.bind] at hrun
    split at hrun
    · exact absurd hrun (by simp)
    · split at hrun
      · exact absurd hrun (by simp)
      · split at hrun
        · exact absurd hrun (by simp)
        · simp only [Except.ok.injEq, Prod.mk.injEq] at hrun
          obtain ⟨hm, ⟨hp, hc⟩, hms⟩ := hrun
          rw [← hc, ← hm]

/-- Witness for C3: a concrete one-epoch run saving to `models/demo.pt`,
then loading the saved checkpoint into `demoFresh`. -/
theorem checkpoint_roundtrip_witness :
    load_state_dict demoFresh
        (Checkpoint.mk 1 [("fc.weight", 5), ("fc.bias", -3)] [("momentum", 9)]
          (np_average [0]) 0 0 (np_average [0]) 0 0).model_state_dict =
      some { demoFresh with
              state_dict :=
                (Checkpoint.mk 1 [("fc.weight", 5), ("fc.bias", -3)] [("momentum", 9)]
                  (np_average [0]) 0 0 (np_average [0]) 0 0).model_state_dict } ∧
    (Checkpoint.mk 1 [("fc.weight", 5), ("fc.bias", -3)] [("momentum", 9)]
        (np_average [0]) 0 0 (np_average [0]) 0 0).model_state_dict =
      (Net.mk "ResNet" [("fc.weight", 5), ("fc.bias", -3)] false true).state_dict :=
  checkpoint_roundtrip unitAutograd demoNet [()] [()] zeroLoss demoOpt demoSched 1 false
    (some "models/demo.pt") none []
    (Net.mk "ResNet" [("fc.weight", 5), ("fc.bias", -3)] false true) "models/demo.pt"
    (Checkpoint.mk 1 [("fc.weight", 5), ("fc.bias", -3)] [("momentum", 9)]
      (np_average [0]) 0 0 (np_average [0]) 0 0)
    (EpochMetrics.mk (np_average [0]) 0 0 (np_average [0]) 0 0) demoFresh
    (by rfl) (by decide)

/-- Helper: after at least one iteration of the epoch loop, the per-epoch
metric variables have been assigned. -/
theorem epoch_fold_metrics_isSome {β γ : Type} (A : Autograd β γ)
    (loss_fun : γ → β → ℚ) (train_loader val_loader : List β) :
    ∀ (l : List Nat) (s : LoopState), l ≠ [] →
      ((l.foldl (fun st _ => epoch_body A loss_fun train_loader val_loader st)
          s).metrics).isSome = true := by
  intro l
  induction l with
  | nil => intro s h; exact absurd rfl h
  | cons a t ih =>
    intro s _
    cases t with
    | nil => simp [List.foldl, epoch_body]
    | cons b t2 =>
      rw [List.foldl_cons]
      exact ih _ (by simp)

/-- C10: calling `train` with `num_epochs = 0` skips the epoch loop, so the
save step references the per-epoch metric variables before any assignment
and the run aborts with an undefined-variable (`NameError`) failure,
writing no checkpoint; with `num_epochs ≥ 1` (and no checkpoint to load)
the run completes and saves.  The side condition `hsp` rules out the
independent `IndexError` of the path synthesis when `str(lr)` contains no
dot. -/
theorem zero_epochs_name_error {β γ : Type} (A : Autograd β γ) (model : Net)
    (train_loader val_loader : List β) (loss_fun : γ → β → ℚ)
    (optimizer : Optim) (scheduler : Sched) (num_epochs : Nat) (augment : Bool)
    (save_ckpt_path : Option String) (fs : List String)
    (hsp : save_ckpt_path.isSome = true ∨ (lr_digits optimizer.lr_str).isSome = true) :
    (num_epochs = 0 →
      train A model train_loader val_loader loss_fun optimizer scheduler num_epochs
        augment save_ckpt_path none fs = Except.error PyError.nameError) ∧
    (1 ≤ num_epochs →
      (train A model train_loader val_loader loss_fun optimizer scheduler num_epochs
        augment save_ckpt_path none fs).isOk = true) := by
  have hresolve : ∀ cname, ∃ p, resolve_save_path fs save_ckpt_path cname
      optimizer.lr_str num_epochs augment = Except.ok p := by
    intro cname
    rcases hsp with h | h
    · obtain ⟨p, hp⟩ := Option.isSome_iff_exists.mp h
      refine ⟨p, ?_⟩
      rw [hp]
      rfl
    · obtain ⟨d, hd⟩ := Option.isSome_iff_exists.mp h
      cases hcase : save_ckpt_path with
      | some p => exact ⟨p, rfl⟩
      | none =>
        refine ⟨uniquify fs ("models/" ++ cname ++ "_lr" ++ d ++ "_epoch" ++
            str_of_nat num_epochs ++ (if augment then "_augment" else "")) ++
            "/" ++ cname ++ ".pt", ?_⟩
        simp only [resolve_save_path, synth_folder, hd, Option.map_some]
        rfl
  constructor
  · intro h0
    subst h0
    obtain ⟨p, hp⟩ := hresolve
      (if str_contains model.className "Inception" then
        { model with aux_logits := false } else model).className
    unfold train
    simp only [bind, Except.bind, load_step, List.range_zero, List.foldl_nil]
    rw [hp]
  · intro h1
    have hne : List.range num_epochs ≠ [] := by
      simp only [ne_eq, List.range_eq_nil]
      omega
    obtain ⟨ms, hms⟩ := Option.isSome_iff_exists.mp
      (epoch_fold_metrics_isSome A loss_fun train_loader val_loader
        (List.range num_epochs)
        ⟨(if str_contains model.className "Inception" then
            { model with aux_logits := false } else model),
          optimizer, scheduler, none⟩ hne)
    obtain ⟨p, hp⟩ := hresolve
      ((List.range num_epochs).foldl
          (fun st _ => epoch_body A loss_fun train_loader val_loader st)
          ⟨(if str_contains model.className "Inception" then
              { model with aux_logits := false } else model),
            optimizer, scheduler, none⟩).net.className
    unfold train
    simp only [bind, Except.bind, load_step]
    rw [hp, hms]
    rfl

/-- Witness for C10: a zero-epoch run with an explicit save path fails with
the undefined-variable error. -/
theorem zero_epochs_name_error_witness :
    train unitAutograd demoNet ([] : List Unit) [] zeroLoss demoOpt demoSched 0 false
      (some "models/demo.pt") none [] = Except.error PyError.nameError :=
  (zero_epochs_name_error unitAutograd demoNet [] [] zeroLoss demoOpt demoSched 0 false
    (some "models/demo.pt") [] (Or.inl rfl)).1 rfl

/-- Helper: every entry of `digits10` is a decimal digit. -/
theorem digits10_lt (fuel : Nat) : ∀ (n : Nat), ∀ d ∈ digits10 fuel n, d < 10 := by
  induction fuel with
  | zero => intro n d hd; simp [digits10] at hd
  | succ f ih =>
    intro n d hd
    unfold digits10 at hd
    by_cases h : n < 10
    · rw [if_pos h] at hd
      simp at hd
      omega
    · rw [if_neg h] at hd
      rcases List.mem_cons.mp hd with h1 | h1
      · subst h1
        exact Nat.mod_lt _ (by omega)
      · exact ih _ d h1

/-- Helper: `digits10` with sufficient fuel is a faithful representation:
its little-endian value is the input. -/
theorem valOfDigits_digits10 (fuel : Nat) : ∀ (n : Nat), n ≤ fuel →
    valOfDigits (digits10 fuel n) = n := by
  induction fuel with
  | zero =>
    intro n hn
    interval_cases n
    simp [digits10, valOfDigits]
  | succ f ih =>
    intro n hn
    unfold digits10
    by_cases h : n < 10
    · rw [if_pos h]
      simp [valOfDigits]
    · rw [if_neg h]
      have hdiv : n / 10 < n := Nat.div_lt_self (by omega) (by omega)
      have : n / 10 ≤ f := by omega
      simp only [valOfDigits, ih (n / 10) this]
      omega

/-- Helper: `Nat.digitChar` is injective on decimal digits. -/
theorem digitChar_inj_fin : ∀ a b : Fin 10,
    Nat.digitChar a.val = Nat.digitChar b.val → a = b := by decide

/-- Helper: mapping `Nat.digitChar` over digit lists is injective. -/
theorem map_digitChar_inj : ∀ (l1 l2 : List Nat),
    (∀ d ∈ l1, d < 10) → (∀ d ∈ l2, d < 10) →
    l1.map Nat.digitChar = l2.map Nat.digitChar → l1 = l2 := by
  intro l1
  induction l1 with
  | nil =>
    intro l2 _ _ h
    cases l2 with
    | nil => rfl
    | cons b bs => simp at h
  | cons a as ih =>
    intro l2 h1 h2 h
    cases l2 with
    | nil => simp at h
    | cons b bs =>
      simp only [List.map_cons, List.cons.injEq] at h
      have ha : a < 10 := h1 a (by simp)
      have hb : b < 10 := h2 b (by simp)
      have hab : a = b := by
        have := digitChar_inj_fin ⟨a, ha⟩ ⟨b, hb⟩ h.1
        exact congrArg Fin.val this
      rw [hab, ih bs (fun d hd => h1 d (by simp [hd])) (fun d hd => h2 d (by simp [hd])) h.2]

/-- Helper: the decimal rendering `str_of_nat` is injective. -/
theorem str_of_nat_inj : Function.Injective str_of_nat := by
  intro m n h
  unfold str_of_nat at h
  have hdata := congrArg String.data h
  simp only [List.asString] at hdata
  have hrev := List.reverse_injective hdata
  have hdig := map_digitChar_inj _ _ (digits10_lt m m) (digits10_lt n n) hrev
  have := congrArg valOfDigits hdig
  rwa [valOfDigits_digits10 m m (le_refl m), valOfDigits_digits10 n n (le_refl n)] at this

/-- Helper: two strings with equal character data are equal. -/
theorem string_data_inj {s t : String} (h : s.data = t.data) : s = t := by
  cases s
  cases t
  exact congrArg String.mk h

/-- Helper: the candidate paths tried by `uniquify` are pairwise distinct
across counter values. -/
theorem uniqCand_inj (path : String) : Function.Injective (uniqCand path) := by
  intro j k h
  unfold uniqCand at h
  have hdata := congrArg String.data h
  simp only [String.data_append, List.append_assoc] at hdata
  have h1 := List.append_cancel_left hdata
  have h2 := List.append_cancel_left h1
  have h3 := List.append_cancel_right h2
  exact str_of_nat_inj (string_data_inj h3)

/-- Helper: some candidate with counter in `[1, fs.length + 1]` does not
exist in the (finite) filesystem `fs`. -/
theorem exists_cand_not_mem (fs : List String) (path : String) :
    ∃ j, j < fs.length + 1 ∧ uniqCand path (1 + j) ∉ fs := by
  by_contra hcon
  push_neg at hcon
  have hsub : ((List.range (fs.length + 1)).map (fun j => uniqCand path (1 + j))) ⊆ fs := by
    intro x hx
    simp only [List.mem_map, List.mem_range] at hx
    obtain ⟨j, hj, rfl⟩ := hx
    exact hcon j hj
  have hnd : ((List.range (fs.length + 1)).map (fun j => uniqCand path (1 + j))).Nodup := by
    refine List.Nodup.map ?_ (List.nodup_range _)
    intro a b hab
    have := uniqCand_inj path hab
    omega
  have hcard1 :
      ((List.range (fs.length + 1)).map (fun j => uniqCand path (1 + j))).toFinset.card =
        fs.length + 1 := by
    rw [List.toFinset_card_of_nodup hnd]
    simp
  have hcard2 :
      ((List.range (fs.length + 1)).map (fun j => uniqCand path (1 + j))).toFinset.card ≤
        fs.length := by
    calc ((List.range (fs.length + 1)).map (fun j => uniqCand path (1 + j))).toFinset.card
        ≤ fs.toFinset.card := by
          apply Finset.card_le_card
          intro x hx
          rw [List.mem_toFinset] at hx ⊢
          exact hsub hx
      _ ≤ fs.length := fs.toFinset_card_le
  omega

/-- Helper: the `uniquify` loop returns its argument unchanged when the
path does not exist. -/
theorem uniquifyAux_not_mem (fs : List String) (orig path : String)
    (counter fuel : Nat) (h : path ∉ fs) :
    uniquifyAux fs orig path counter fuel = path := by
  cases fuel with
  | zero => rfl
  | succ f =>
    unfold uniquifyAux
    rw [if_neg h]

/-- Helper: correctness of the `uniquify` loop: starting from an existing
path, it returns the candidate with the least counter (at or above the
current one) whose path does not exist, provided some such counter is in
fuel range. -/
theorem uniquifyAux_spec (fs : List String) (orig : String) :
    ∀ (fuel counter : Nat) (path : String), path ∈ fs →
    (∃ j, j < fuel ∧ uniqCand orig (counter + j) ∉ fs) →
    ∃ k, counter ≤ k ∧ uniqCand orig k ∉ fs ∧
      (∀ j, counter ≤ j → j < k → uniqCand orig j ∈ fs) ∧
      uniquifyAux fs orig path counter fuel = uniqCand orig k := by
  intro fuel
  induction fuel with
  | zero =>
    intro counter path _ hex
    obtain ⟨j, hj, _⟩ := hex
    omega
  | succ f ih =>
    intro counter path hp hex
    unfold uniquifyAux
    rw [if_pos hp]
    by_cases hc : uniqCand orig counter ∈ fs
    · obtain ⟨j, hj, hnj⟩ := hex
      have hj0 : j ≠ 0 := by
        intro h0
        rw [h0, Nat.add_zero] at hnj
        exact hnj hc
      have hex2 : ∃ j2, j2 < f ∧ uniqCand orig (counter + 1 + j2) ∉ fs := by
        refine ⟨j - 1, by omega, ?_⟩
        have : counter + 1 + (j - 1) = counter + j := by omega
        rw [this]
        exact hnj
      obtain ⟨k, hk1, hk2, hk3, hk4⟩ := ih (counter + 1) (uniqCand orig counter) hc hex2
      refine ⟨k, by omega, hk2, ?_, hk4⟩
      intro j2 hj2a hj2b
      by_cases hje : j2 = counter
      · rw [hje]
        exact hc
      · exact hk3 j2 (by omega) hj2b
    · refine ⟨counter, le_refl _, hc, ?_, ?_⟩
      · intro j hj1 hj2
        omega
      · exact uniquifyAux_not_mem fs orig (uniqCand orig counter) (counter + 1) f hc

/-- C4: `uniquify` resolves a collision by appending `_1`, `_2`, … before
the extension, returning the candidate with the smallest counter whose path
does not exist (and returning the path unchanged when there is no
collision); in particular, with
`models/ResNet-18_lr5_epoch10/ResNet-18.pt` already existing, a second save
request synthesizing the same name (class name `ResNet-18`, learning rate
0.5, 10 epochs) yields `models/ResNet-18_lr5_epoch10_1/ResNet-18.pt`. -/
theorem uniquify_smallest_counter (fs : List String) (path : String) :
    (path ∉ fs → uniquify fs path = path) ∧
    (path ∈ fs →
      ∃ k, 1 ≤ k ∧ uniqCand path k ∉ fs ∧
        (∀ j, 1 ≤ j → j < k → uniqCand path j ∈ fs) ∧
        uniquify fs path = uniqCand path k) ∧
    (resolve_save_path
        ["models", "models/ResNet-18_lr5_epoch10",
         "models/ResNet-18_lr5_epoch10/ResNet-18.pt"]
        none "ResNet-18" "0.5" 10 false =
      Except.ok "models/ResNet-18_lr5_epoch10_1/ResNet-18.pt") := by
  refine ⟨?_, ?_, ?_⟩
  · intro h
    exact uniquifyAux_not_mem fs path path 1 (fs.length + 1) h
  · intro hp
    obtain ⟨j, hj, hnj⟩ := exists_cand_not_mem fs path
    obtain ⟨k, hk1, hk2, hk3, hk4⟩ :=
      uniquifyAux_spec fs path (fs.length + 1) 1 path hp ⟨j, hj, hnj⟩
    exact ⟨k, hk1, hk2, hk3, hk4⟩
  · rfl

/-- Witness for C4: the collision scenario itself, discharged concretely
(the folder exists, counter 1 is free, and `uniquify` picks it). -/
theorem uniquify_smallest_counter_witness :
    ∃ k, 1 ≤ k ∧
      uniqCand "models/ResNet-18_lr5_epoch10" k ∉
        ["models", "models/ResNet-18_lr5_epoch10",
         "models/ResNet-18_lr5_epoch10/ResNet-18.pt"] ∧
      (∀ j, 1 ≤ j → j < k →
        uniqCand "models/ResNet-18_lr5_epoch10" j ∈
          ["models", "models/ResNet-18_lr5_epoch10",
           "models/ResNet-18_lr5_epoch10/ResNet-18.pt"]) ∧
      uniquify
          ["models", "models/ResNet-18_lr5_epoch10",
           "models/ResNet-18_lr5_epoch10/ResNet-18.pt"]
          "models/ResNet-18_lr5_epoch10" =
        uniqCand "models/ResNet-18_lr5_epoch10" k :=
  (uniquify_smallest_counter
      ["models", "models/ResNet-18_lr5_epoch10",
       "models/ResNet-18_lr5_epoch10/ResNet-18.pt"]
      "models/ResNet-18_lr5_epoch10").2.1 (by decide)
